import Mathlib

/-!
Shallow embedding of the RepSpheres provider-intelligence enrichment engine
(`app.py`, class `ProviderIntelligenceEngine`, plus the single-cycle test
entry point in `test_enrichment.py`).

Pure data transformations (signal classification, display-name derivation,
record construction) are embedded as Lean functions.  Network fetches are
embedded as functions over an explicit `HttpResult` describing the outcome of
the one bounded request each source makes; database effects are embedded as
explicit state passing over a `DbState`, with a `FailureModel` injecting the
insert/update failures the code catches.  Python truthiness of optional
string fields is `optTruthy`; Python `dict` assignment is `dictInsert`
(overwrite-in-place / append) with lookup `dictGet`.
-/

/-- The 15 equipment vocabulary terms (`self.equipment_signals` in `app.py`). -/
def equipment_signals : List String :=
  ["Morpheus8", "CO2 laser", "IPL", "CoolSculpting", "Hydrafacial",
   "Ultherapy", "Clear + Brilliant", "Fraxel", "PicoSure", "Emsculpt",
   "InMode", "Candela", "Lumenis", "Sciton", "Cutera"]

/-- The 8 expansion vocabulary terms (`self.expansion_signals`). -/
def expansion_signals : List String :=
  ["new location", "grand opening", "now offering", "expanding",
   "hiring", "join our team", "second location", "new office"]

/-- The 6 financial-distress vocabulary terms (`self.distress_signals`). -/
def distress_signals : List String :=
  ["closing", "closed permanently", "out of business", "bankruptcy",
   "for sale", "shutting down"]

/-- `startsWithChars n h` : the char list `n` is an initial segment of `h`. -/
def startsWithChars : List Char → List Char → Bool
  | [], _ => true
  | _ :: _, [] => false
  | a :: as, b :: bs => a == b && startsWithChars as bs

/-- `containsChars n h` : the char list `n` occurs contiguously inside `h`
(Python's substring operator `in` on the underlying character sequences). -/
def containsChars (needle : List Char) : List Char → Bool
  | [] => needle.isEmpty
  | c :: rest => startsWithChars needle (c :: rest) || containsChars needle rest

/-- Case-insensitive substring test: `term.lower() in signal.lower()` in
`app.py` (ASCII lowering, which is all the vocabulary uses). -/
def substrCI (term signal : String) : Bool :=
  containsChars (term.toList.map Char.toLower) (signal.toList.map Char.toLower)

/-- One value of the equipment map:
`{'detected': True, 'source': 'web_search', 'timestamp': now}`. -/
structure EquipEntry where
  detected : Bool
  source : String
  timestamp : String
deriving DecidableEq

/-- `app.py` stores equipment findings in a Python `dict`; we embed it as an
association list whose insert mirrors `dict` assignment. -/
abbrev EquipDict := List (String × EquipEntry)

/-- Python `d[k] = v`: overwrite in place when the key exists, else append. -/
def dictInsert (k : String) (v : EquipEntry) (d : EquipDict) : EquipDict :=
  if d.any (fun p => p.1 == k) then
    d.map (fun p => if p.1 == k then (k, v) else p)
  else d ++ [(k, v)]

/-- Python `d.get(k)`: the value stored at `k`, if any. -/
def dictGet (k : String) : EquipDict → Option EquipEntry
  | [] => none
  | (k', v) :: rest => if k' == k then some v else dictGet k rest

/-- The classifier's working state: the `equipment_data` dict, the two
`market_insights` flags, and the running `opportunity_score`
(the mutable `intelligence` dict of `enrich_provider`). -/
structure Intelligence where
  equipment_data : EquipDict
  expansion_signal : Bool
  distress_signal : Bool
  opportunity_score : Int
deriving DecidableEq

/-- The fresh intelligence draft built at the top of `enrich_provider`:
empty equipment map, no insight flags, score 0. -/
def initIntelligence : Intelligence :=
  { equipment_data := [], expansion_signal := false,
    distress_signal := false, opportunity_score := 0 }

/-- The constant entry written on every equipment match (`now` is the
serialized `datetime.now()` of the enrichment pass). -/
def webSearchEntry (now : String) : EquipEntry :=
  { detected := true, source := "web_search", timestamp := now }

/-- Body of `for equipment in self.equipment_signals:` — on a match, write the
dict entry and add 20 to the score. -/
def equipStep (now signal : String) (st : Intelligence) (e : String) : Intelligence :=
  if substrCI e signal then
    { st with
      equipment_data := dictInsert e (webSearchEntry now) st.equipment_data,
      opportunity_score := st.opportunity_score + 20 }
  else st

/-- Body of `for expansion in self.expansion_signals:` — on a match, set the
expansion flag and add 15. -/
def expansionStep (signal : String) (st : Intelligence) (x : String) : Intelligence :=
  if substrCI x signal then
    { st with expansion_signal := true,
              opportunity_score := st.opportunity_score + 15 }
  else st

/-- Body of `for distress in self.distress_signals:` — on a match, set the
distress flag and subtract 30. -/
def distressStep (signal : String) (st : Intelligence) (d : String) : Intelligence :=
  if substrCI d signal then
    { st with distress_signal := true,
              opportunity_score := st.opportunity_score - 30 }
  else st

/-- The body of `for signal in signals_found:` in `enrich_provider`
(`app.py` lines 167-188): scan the three vocabularies against one signal,
updating the equipment dict, the insight flags and the score. -/
def processSignal (now : String) (st : Intelligence) (signal : String) : Intelligence :=
  distress_signals.foldl (distressStep signal)
    (expansion_signals.foldl (expansionStep signal)
      (equipment_signals.foldl (equipStep now signal) st))

/-- The signal classifier: fold `processSignal` over all signals gathered for
one target, starting from the fresh draft. -/
def classify (now : String) (signals : List String) : Intelligence :=
  signals.foldl (processSignal now) initIntelligence

/-- Per-signal score contribution: +20 per matched equipment term, +15 per
matched expansion term, −30 per matched distress term. -/
def signalScore (sig : String) : Int :=
  20 * (equipment_signals.countP (fun t => substrCI t sig) : Int)
    + 15 * (expansion_signals.countP (fun t => substrCI t sig) : Int)
    - 30 * (distress_signals.countP (fun t => substrCI t sig) : Int)

example : substrCI "Morpheus8" "Our new MORPHEUS8 device" = true := by decide
example : substrCI "hiring" "Nothing to see" = false := by decide
example : (classify "T" ["Now offering Morpheus8"]).opportunity_score = 35 := by decide
example : (classify "T" ["closing down"]).opportunity_score = -30 := by decide

/-! ### Lemmas about the dict model -/

theorem dictGet_cons (k k' : String) (w : EquipEntry) (rest : EquipDict) :
    dictGet k ((k', w) :: rest) = if k' == k then some w else dictGet k rest := rfl

theorem dictGet_map_ne (e k : String) (v : EquipEntry) (h : ¬ e = k) (d : EquipDict) :
    dictGet k (d.map fun p => if p.1 == e then (e, v) else p) = dictGet k d := by
  induction d with
  | nil => rfl
  | cons hd tl ih =>
    obtain ⟨k', w⟩ := hd
    rw [List.map_cons]
    by_cases hke : k' = e
    · have hhead : (if ((k', w).1 == e) = true then (e, v) else (k', w)) = (e, v) := by
        simp only [beq_iff_eq.mpr hke, if_true]
      have h3 : ¬ k' = k := by rw [hke]; exact h
      rw [hhead, dictGet_cons, dictGet_cons]
      simp only [beq_eq_false_iff_ne.mpr h, beq_eq_false_iff_ne.mpr h3,
        Bool.false_eq_true, if_false]
      exact ih
    · have hhead : (if ((k', w).1 == e) = true then (e, v) else (k', w)) = (k', w) := by
        simp only [beq_eq_false_iff_ne.mpr hke, Bool.false_eq_true, if_false]
      rw [hhead, dictGet_cons, dictGet_cons, ih]

theorem dictGet_map_self (e : String) (v : EquipEntry) (d : EquipDict)
    (h : d.any (fun p => p.1 == e) = true) :
    dictGet e (d.map fun p => if p.1 == e then (e, v) else p) = some v := by
  induction d with
  | nil => simp at h
  | cons hd tl ih =>
    obtain ⟨k', w⟩ := hd
    rw [List.map_cons]
    by_cases hke : k' = e
    · have hhead : (if ((k', w).1 == e) = true then (e, v) else (k', w)) = (e, v) := by
        simp only [beq_iff_eq.mpr hke, if_true]
      rw [hhead, dictGet_cons]
      simp only [beq_self_eq_true, if_true]
    · have hhead : (if ((k', w).1 == e) = true then (e, v) else (k', w)) = (k', w) := by
        simp only [beq_eq_false_iff_ne.mpr hke, Bool.false_eq_true, if_false]
      simp only [List.any_cons, beq_eq_false_iff_ne.mpr hke, Bool.false_or] at h
      rw [hhead, dictGet_cons]
      simp only [beq_eq_false_iff_ne.mpr hke, Bool.false_eq_true, if_false]
      exact ih h

theorem dictGet_append (k : String) (d d' : EquipDict) :
    dictGet k (d ++ d')
      = match dictGet k d with
        | some w => some w
        | none => dictGet k d' := by
  induction d with
  | nil => rfl
  | cons hd tl ih =>
    obtain ⟨k', w⟩ := hd
    rw [List.cons_append, dictGet_cons, dictGet_cons]
    by_cases hkk : k' = k
    · simp only [beq_iff_eq.mpr hkk, if_true]
    · simp only [beq_eq_false_iff_ne.mpr hkk, Bool.false_eq_true, if_false]
      exact ih

theorem dictGet_eq_none_of_not_any (e : String) (d : EquipDict)
    (h : d.any (fun p => p.1 == e) = false) :
    dictGet e d = none := by
  induction d with
  | nil => rfl
  | cons hd tl ih =>
    obtain ⟨k', w⟩ := hd
    simp only [List.any_cons, Bool.or_eq_false_iff] at h
    rw [dictGet_cons]
    simp only [h.1, Bool.false_eq_true, if_false]
    exact ih h.2

theorem dictGet_dictInsert (e k : String) (v : EquipEntry) (d : EquipDict) :
    dictGet k (dictInsert e v d) = if e == k then some v else dictGet k d := by
  unfold dictInsert
  by_cases hany : d.any (fun p => p.1 == e) = true
  · simp only [hany, if_true]
    by_cases hek : e = k
    · subst hek
      rw [dictGet_map_self e v d hany]
      simp only [beq_self_eq_true, if_true]
    · rw [dictGet_map_ne e k v hek d]
      simp only [beq_eq_false_iff_ne.mpr hek, Bool.false_eq_true, if_false]
  · have hany' : d.any (fun p => p.1 == e) = false := Bool.eq_false_iff.mpr hany
    simp only [hany', Bool.false_eq_true, if_false]
    rw [dictGet_append]
    by_cases hek : e = k
    · subst hek
      rw [dictGet_eq_none_of_not_any e d hany']
      show dictGet e [(e, v)] = if (e == e) = true then some v else none
      rw [dictGet_cons]
      simp only [beq_self_eq_true, if_true]
    · cases hdg : dictGet k d with
      | none =>
        show dictGet k [(e, v)] = if (e == k) = true then some v else none
        rw [dictGet_cons]
        simp only [beq_eq_false_iff_ne.mpr hek, Bool.false_eq_true, if_false]
        rfl
      | some w =>
        show some w = if (e == k) = true then some v else some w
        simp only [beq_eq_false_iff_ne.mpr hek, Bool.false_eq_true, if_false]

/-! ### Characterization of the classifier folds -/

theorem equip_foldl_spec (now sig : String) (l : List String) :
    ∀ st : Intelligence,
      ((l.foldl (equipStep now sig) st).opportunity_score
          = st.opportunity_score + 20 * (l.countP (fun e => substrCI e sig) : Int))
      ∧ ((l.foldl (equipStep now sig) st).expansion_signal = st.expansion_signal)
      ∧ ((l.foldl (equipStep now sig) st).distress_signal = st.distress_signal)
      ∧ ∀ k, dictGet k (l.foldl (equipStep now sig) st).equipment_data
          = if k ∈ l ∧ substrCI k sig = true then some (webSearchEntry now)
            else dictGet k st.equipment_data := by
  induction l with
  | nil =>
    intro st
    refine ⟨by simp, rfl, rfl, fun k => ?_⟩
    simp
  | cons e l ih =>
    intro st
    simp only [List.foldl_cons]
    by_cases hm : substrCI e sig = true
    · have hstep : equipStep now sig st e
          = { st with
              equipment_data := dictInsert e (webSearchEntry now) st.equipment_data,
              opportunity_score := st.opportunity_score + 20 } := by
        simp [equipStep, hm]
      rw [hstep]
      obtain ⟨hsc, hex, hdi, hdg⟩ := ih
        { st with
          equipment_data := dictInsert e (webSearchEntry now) st.equipment_data,
          opportunity_score := st.opportunity_score + 20 }
      refine ⟨?_, hex, hdi, ?_⟩
      · rw [hsc]
        simp only [List.countP_cons, hm, if_true]
        push_cast
        ring
      · intro k
        rw [hdg k]
        show _ = if k ∈ e :: l ∧ substrCI k sig = true then some (webSearchEntry now)
            else dictGet k st.equipment_data
        rw [dictGet_dictInsert]
        by_cases hek : e = k
        · subst hek
          by_cases hkl : e ∈ l <;> simp [hm, hkl]
        · have h2 : ¬ k = e := fun hh => hek hh.symm
          rw [beq_eq_false_iff_ne.mpr hek]
          by_cases hkl : k ∈ l <;> by_cases hsub : substrCI k sig = true <;>
            simp [hkl, hsub, h2, List.mem_cons]
    · have hm' : substrCI e sig = false := Bool.eq_false_iff.mpr hm
      have hstep : equipStep now sig st e = st := by simp [equipStep, hm']
      rw [hstep]
      obtain ⟨hsc, hex, hdi, hdg⟩ := ih st
      refine ⟨?_, hex, hdi, ?_⟩
      · rw [hsc]
        simp [List.countP_cons, hm']
      · intro k
        rw [hdg k]
        by_cases hek : e = k
        · subst hek
          simp [hm']
        · have h2 : ¬ k = e := fun hh => hek hh.symm
          simp [h2, List.mem_cons]

theorem expansion_foldl_spec (sig : String) (l : List String) :
    ∀ st : Intelligence,
      ((l.foldl (expansionStep sig) st).opportunity_score
          = st.opportunity_score + 15 * (l.countP (fun x => substrCI x sig) : Int))
      ∧ ((l.foldl (expansionStep sig) st).expansion_signal
          = (st.expansion_signal || l.any (fun x => substrCI x sig)))
      ∧ ((l.foldl (expansionStep sig) st).distress_signal = st.distress_signal)
      ∧ ((l.foldl (expansionStep sig) st).equipment_data = st.equipment_data) := by
  induction l with
  | nil => intro st; refine ⟨by simp, by simp, rfl, rfl⟩
  | cons x l ih =>
    intro st
    simp only [List.foldl_cons]
    by_cases hm : substrCI x sig = true
    · have hstep : expansionStep sig st x
          = { st with expansion_signal := true,
                      opportunity_score := st.opportunity_score + 15 } := by
        simp [expansionStep, hm]
      rw [hstep]
      obtain ⟨hsc, hex, hdi, heq⟩ := ih
        { st with expansion_signal := true,
                  opportunity_score := st.opportunity_score + 15 }
      refine ⟨?_, ?_, hdi, heq⟩
      · rw [hsc]
        simp only [List.countP_cons, hm, if_true]
        push_cast
        ring
      · rw [hex]
        simp [List.any_cons, hm]
    · have hm' : substrCI x sig = false := Bool.eq_false_iff.mpr hm
      have hstep : expansionStep sig st x = st := by simp [expansionStep, hm']
      rw [hstep]
      obtain ⟨hsc, hex, hdi, heq⟩ := ih st
      refine ⟨?_, ?_, hdi, heq⟩
      · rw [hsc]
        simp [List.countP_cons, hm']
      · rw [hex]
        simp [List.any_cons, hm']

theorem distress_foldl_spec (sig : String) (l : List String) :
    ∀ st : Intelligence,
      ((l.foldl (distressStep sig) st).opportunity_score
          = st.opportunity_score - 30 * (l.countP (fun d => substrCI d sig) : Int))
      ∧ ((l.foldl (distressStep sig) st).expansion_signal = st.expansion_signal)
      ∧ ((l.foldl (distressStep sig) st).distress_signal
          = (st.distress_signal || l.any (fun d => substrCI d sig)))
      ∧ ((l.foldl (distressStep sig) st).equipment_data = st.equipment_data) := by
  induction l with
  | nil => intro st; refine ⟨by simp, rfl, by simp, rfl⟩
  | cons d l ih =>
    intro st
    simp only [List.foldl_cons]
    by_cases hm : substrCI d sig = true
    · have hstep : distressStep sig st d
          = { st with distress_signal := true,
                      opportunity_score := st.opportunity_score - 30 } := by
        simp [distressStep, hm]
      rw [hstep]
      obtain ⟨hsc, hex, hdi, heq⟩ := ih
        { st with distress_signal := true,
                  opportunity_score := st.opportunity_score - 30 }
      refine ⟨?_, hex, ?_, heq⟩
      · rw [hsc]
        simp only [List.countP_cons, hm, if_true]
        push_cast
        ring
      · rw [hdi]
        simp [List.any_cons, hm]
    · have hm' : substrCI d sig = false := Bool.eq_false_iff.mpr hm
      have hstep : distressStep sig st d = st := by simp [distressStep, hm']
      rw [hstep]
      obtain ⟨hsc, hex, hdi, heq⟩ := ih st
      refine ⟨?_, hex, ?_, heq⟩
      · rw [hsc]
        simp [List.countP_cons, hm']
      · rw [hdi]
        simp [List.any_cons, hm']

theorem processSignal_spec (now sig : String) (st : Intelligence) :
    ((processSignal now st sig).opportunity_score = st.opportunity_score + signalScore sig)
    ∧ ((processSignal now st sig).expansion_signal
        = (st.expansion_signal || expansion_signals.any (fun x => substrCI x sig)))
    ∧ ((processSignal now st sig).distress_signal
        = (st.distress_signal || distress_signals.any (fun d => substrCI d sig)))
    ∧ ∀ k, dictGet k (processSignal now st sig).equipment_data
        = if k ∈ equipment_signals ∧ substrCI k sig = true then some (webSearchEntry now)
          else dictGet k st.equipment_data := by
  unfold processSignal
  obtain ⟨e1, e2, e3, e4⟩ := equip_foldl_spec now sig equipment_signals st
  obtain ⟨x1, x2, x3, x4⟩ :=
    expansion_foldl_spec sig expansion_signals (equipment_signals.foldl (equipStep now sig) st)
  obtain ⟨d1, d2, d3, d4⟩ :=
    distress_foldl_spec sig distress_signals
      (expansion_signals.foldl (expansionStep sig) (equipment_signals.foldl (equipStep now sig) st))
  refine ⟨?_, ?_, ?_, ?_⟩
  · rw [d1, x1, e1]
    unfold signalScore
    ring
  · rw [d2, x2, e2]
  · rw [d3, x3, e3]
  · intro k
    rw [d4, x4, e4 k]

theorem classify_foldl_spec (now : String) (sigs : List String) :
    ∀ st : Intelligence,
      ((sigs.foldl (processSignal now) st).opportunity_score
          = st.opportunity_score + (sigs.map signalScore).sum)
      ∧ ((sigs.foldl (processSignal now) st).expansion_signal
          = (st.expansion_signal
              || sigs.any (fun s => expansion_signals.any (fun x => substrCI x s))))
      ∧ ((sigs.foldl (processSignal now) st).distress_signal
          = (st.distress_signal
              || sigs.any (fun s => distress_signals.any (fun d => substrCI d s))))
      ∧ ∀ k, dictGet k (sigs.foldl (processSignal now) st).equipment_data
          = if k ∈ equipment_signals ∧ sigs.any (fun s => substrCI k s) = true
            then some (webSearchEntry now)
            else dictGet k st.equipment_data := by
  induction sigs with
  | nil =>
    intro st
    refine ⟨by simp, by simp, by simp, fun k => ?_⟩
    simp
  | cons s sigs ih =>
    intro st
    simp only [List.foldl_cons]
    obtain ⟨i1, i2, i3, i4⟩ := ih (processSignal now st s)
    obtain ⟨p1, p2, p3, p4⟩ := processSignal_spec now s st
    refine ⟨?_, ?_, ?_, ?_⟩
    · rw [i1, p1]
      simp only [List.map_cons, List.sum_cons]
      ring
    · rw [i2, p2]
      simp [List.any_cons, Bool.or_assoc]
    · rw [i3, p3]
      simp [List.any_cons, Bool.or_assoc]
    · intro k
      rw [i4 k]
      by_cases hmem : k ∈ equipment_signals
      · by_cases hs : substrCI k s = true
        · rw [p4 k]
          simp [hmem, hs, List.any_cons]
        · have hs' : substrCI k s = false := Bool.eq_false_iff.mpr hs
          rw [p4 k]
          simp [hmem, hs', List.any_cons]
      · rw [p4 k]
        simp [hmem]

/-- Score characterization: the classifier's final score is the sum of the
per-signal contributions. -/
theorem classify_score (now : String) (sigs : List String) :
    (classify now sigs).opportunity_score = (sigs.map signalScore).sum := by
  have h := (classify_foldl_spec now sigs initIntelligence).1
  simpa [classify, initIntelligence] using h

theorem classify_expansion (now : String) (sigs : List String) :
    (classify now sigs).expansion_signal
      = sigs.any (fun s => expansion_signals.any (fun x => substrCI x s)) := by
  have h := (classify_foldl_spec now sigs initIntelligence).2.1
  simpa [classify, initIntelligence] using h

theorem classify_distress (now : String) (sigs : List String) :
    (classify now sigs).distress_signal
      = sigs.any (fun s => distress_signals.any (fun d => substrCI d s)) := by
  have h := (classify_foldl_spec now sigs initIntelligence).2.2.1
  simpa [classify, initIntelligence] using h

theorem classify_dictGet (now : String) (sigs : List String) (k : String) :
    dictGet k (classify now sigs).equipment_data
      = if k ∈ equipment_signals ∧ sigs.any (fun s => substrCI k s) = true
        then some (webSearchEntry now) else none := by
  have h := (classify_foldl_spec now sigs initIntelligence).2.2.2 k
  simpa [classify, initIntelligence, dictGet] using h

/-- Expanding the per-signal sum into the three weighted match totals. -/
theorem map_signalScore_sum (sigs : List String) :
    (sigs.map signalScore).sum
      = 20 * (sigs.map (fun s => (equipment_signals.countP (fun t => substrCI t s) : Int))).sum
        + 15 * (sigs.map (fun s => (expansion_signals.countP (fun t => substrCI t s) : Int))).sum
        - 30 * (sigs.map (fun s => (distress_signals.countP (fun t => substrCI t s) : Int))).sum := by
  induction sigs with
  | nil => simp
  | cons s sigs ih =>
    simp only [List.map_cons, List.sum_cons, ih, signalScore]
    ring

theorem perm_any {α : Type} {l1 l2 : List α} (h : l1.Perm l2) (p : α → Bool) :
    l1.any p = l2.any p := by
  apply Bool.eq_iff_iff.mpr
  simp only [List.any_eq_true]
  constructor
  · rintro ⟨x, hx, hpx⟩
    exact ⟨x, h.mem_iff.mp hx, hpx⟩
  · rintro ⟨x, hx, hpx⟩
    exact ⟨x, h.mem_iff.mpr hx, hpx⟩

/-- C1: for every list of signals for one target, the computed opportunity
score equals the signed sum over all (signal, vocabulary-term) pairs in which
the term is a case-insensitive substring of the signal text — +20 per
equipment-term match, +15 per expansion-term match, −30 per distress-term
match, repeats across signals compounding, with no floor or ceiling clamp —
and every matched equipment term's map entry is exactly
`{detected := true, source := "web_search", timestamp := now}`. -/
theorem C1_classifier_signed_sum (now : String) (signals : List String) :
    ((classify now signals).opportunity_score
        = 20 * (signals.map (fun s => (equipment_signals.countP (fun t => substrCI t s) : Int))).sum
          + 15 * (signals.map (fun s => (expansion_signals.countP (fun t => substrCI t s) : Int))).sum
          - 30 * (signals.map (fun s => (distress_signals.countP (fun t => substrCI t s) : Int))).sum)
    ∧ ∀ e, dictGet e (classify now signals).equipment_data
        = if e ∈ equipment_signals ∧ signals.any (fun s => substrCI e s) = true
          then some (webSearchEntry now) else none :=
  ⟨(classify_score now signals).trans (map_signalScore_sum signals),
   fun e => classify_dictGet now signals e⟩

/-- C8: classification is invariant under permutation of the signal list —
the same opportunity score, the same market-insight flags, and the same
equipment-map entries, whatever order the signals arrived in. -/
theorem C8_classification_perm_invariant (now : String) (s1 s2 : List String)
    (h : s1.Perm s2) :
    ((classify now s1).opportunity_score = (classify now s2).opportunity_score)
    ∧ ((classify now s1).expansion_signal = (classify now s2).expansion_signal)
    ∧ ((classify now s1).distress_signal = (classify now s2).distress_signal)
    ∧ ∀ e, dictGet e (classify now s1).equipment_data
          = dictGet e (classify now s2).equipment_data := by
  refine ⟨?_, ?_, ?_, ?_⟩
  · rw [classify_score, classify_score]
    exact List.Perm.sum_eq (h.map signalScore)
  · rw [classify_expansion, classify_expansion]
    exact perm_any h _
  · rw [classify_distress, classify_distress]
    exact perm_any h _
  · intro e
    rw [classify_dictGet, classify_dictGet, perm_any h (fun s => substrCI e s)]

/-- Witness for C8 at a concrete two-signal swap. -/
theorem C8_classification_perm_invariant_witness :
    ((classify "T" ["hiring", "Morpheus8 special"]).opportunity_score
        = (classify "T" ["Morpheus8 special", "hiring"]).opportunity_score)
    ∧ dictGet "Morpheus8" (classify "T" ["hiring", "Morpheus8 special"]).equipment_data
        = dictGet "Morpheus8" (classify "T" ["Morpheus8 special", "hiring"]).equipment_data := by
  have h := C8_classification_perm_invariant "T" ["hiring", "Morpheus8 special"]
      ["Morpheus8 special", "hiring"] (List.Perm.swap "Morpheus8 special" "hiring" [])
  exact ⟨h.1, h.2.2.2 "Morpheus8"⟩

/-! ### Targets (provider directory rows) and display-name derivation -/

/-- A row of the `rpin_providers` directory, restricted to the columns the
engine selects (`id,npi,provider_name,first_name,last_name,organization_name,
city,state`).  Optional columns may be missing/None; `id` is the stable
internal identifier (stringified). -/
structure Provider where
  id : String
  npi : Option String
  provider_name : Option String
  first_name : Option String
  last_name : Option String
  organization_name : Option String
  city : Option String
  state : Option String
deriving DecidableEq

/-- Python truthiness of an optional string field: present and non-empty. -/
def optTruthy : Option String → Bool
  | some s => s != ""
  | none => false

/-- `_build_provider_name` (`app.py` lines 333-348): fixed precedence
organization name > "Dr. first last" > "Dr. last" > raw `provider_name` >
literal `"Unknown Provider"`. -/
def _build_provider_name (p : Provider) : String :=
  if optTruthy p.organization_name then p.organization_name.getD ""
  else if optTruthy p.first_name && optTruthy p.last_name then
    "Dr. " ++ p.first_name.getD "" ++ " " ++ p.last_name.getD ""
  else if optTruthy p.last_name then "Dr. " ++ p.last_name.getD ""
  else if optTruthy p.provider_name then p.provider_name.getD ""
  else "Unknown Provider"

/-- C7: the display-name precedence, branch by branch. -/
theorem C7_display_name_precedence (p : Provider) :
    (optTruthy p.organization_name = true →
        _build_provider_name p = p.organization_name.getD "")
    ∧ (optTruthy p.organization_name = false → optTruthy p.first_name = true →
        optTruthy p.last_name = true →
        _build_provider_name p
          = "Dr. " ++ p.first_name.getD "" ++ " " ++ p.last_name.getD "")
    ∧ (optTruthy p.organization_name = false → optTruthy p.first_name = false →
        optTruthy p.last_name = true →
        _build_provider_name p = "Dr. " ++ p.last_name.getD "")
    ∧ (optTruthy p.organization_name = false → optTruthy p.last_name = false →
        optTruthy p.provider_name = true →
        _build_provider_name p = p.provider_name.getD "")
    ∧ (optTruthy p.organization_name = false → optTruthy p.last_name = false →
        optTruthy p.provider_name = false →
        _build_provider_name p = "Unknown Provider") := by
  refine ⟨?_, ?_, ?_, ?_, ?_⟩
  · intro h1
    simp [_build_provider_name, h1]
  · intro h1 h2 h3
    simp [_build_provider_name, h1, h2, h3]
  · intro h1 h2 h3
    simp [_build_provider_name, h1, h2, h3]
  · intro h1 h2 h3
    simp [_build_provider_name, h1, h2, h3]
  · intro h1 h2 h3
    simp [_build_provider_name, h1, h2, h3]

/-- Target with only an organization name ("Acme Spa" example of the spec). -/
def provAcme : Provider :=
  { id := "1", npi := some "1111111111", provider_name := none, first_name := none,
    last_name := none, organization_name := some "Acme Spa", city := none,
    state := some "CA" }

/-- Target with first and last name only. -/
def provJane : Provider :=
  { id := "2", npi := some "2222222222", provider_name := none,
    first_name := some "Jane", last_name := some "Doe", organization_name := none,
    city := none, state := some "NY" }

/-- Target with a last name only. -/
def provDoeOnly : Provider :=
  { id := "3", npi := some "3333333333", provider_name := none, first_name := none,
    last_name := some "Doe", organization_name := none, city := none,
    state := some "TX" }

/-- Target with only the raw stored `provider_name`. -/
def provXYZ : Provider :=
  { id := "4", npi := some "4444444444", provider_name := some "XYZ",
    first_name := none, last_name := none, organization_name := none,
    city := none, state := some "FL" }

/-- Target with no name fields at all. -/
def provBlank : Provider :=
  { id := "5", npi := none, provider_name := none, first_name := none,
    last_name := none, organization_name := none, city := none, state := none }

/-- Witness for C7 at the five concrete examples of the spec. -/
theorem C7_display_name_precedence_witness :
    _build_provider_name provAcme = "Acme Spa"
    ∧ _build_provider_name provJane = "Dr. Jane Doe"
    ∧ _build_provider_name provDoeOnly = "Dr. Doe"
    ∧ _build_provider_name provXYZ = "XYZ"
    ∧ _build_provider_name provBlank = "Unknown Provider" := by
  refine ⟨?_, ?_, ?_, ?_, ?_⟩
  · exact ((C7_display_name_precedence provAcme).1 (by decide)).trans rfl
  · exact ((C7_display_name_precedence provJane).2.1 (by decide) (by decide)
      (by decide)).trans rfl
  · exact ((C7_display_name_precedence provDoeOnly).2.2.1 (by decide) (by decide)
      (by decide)).trans rfl
  · exact ((C7_display_name_precedence provXYZ).2.2.2.1 (by decide) (by decide)
      (by decide)).trans rfl
  · exact (C7_display_name_precedence provBlank).2.2.2.2 (by decide) (by decide)
      (by decide)

/-- C10: whatever name fields are absent or empty, the derived display name
is never the empty string. -/
theorem C10_display_name_nonempty (p : Provider) :
    _build_provider_name p ≠ "" := by
  unfold _build_provider_name
  split_ifs with h1 h2 h3 h4
  · cases ho : p.organization_name with
    | none => rw [ho] at h1; simp [optTruthy] at h1
    | some s =>
      rw [ho] at h1
      simpa [optTruthy] using h1
  · intro hc
    have h := congrArg String.length hc
    simp only [String.length_append] at h
    have h4 : ("Dr. " : String).length = 4 := rfl
    have hsp : (" " : String).length = 1 := rfl
    have hz : ("" : String).length = 0 := rfl
    omega
  · intro hc
    have h := congrArg String.length hc
    simp only [String.length_append] at h
    have h4 : ("Dr. " : String).length = 4 := rfl
    have hz : ("" : String).length = 0 := rfl
    omega
  · cases ho : p.provider_name with
    | none => rw [ho] at h4; simp [optTruthy] at h4
    | some s =>
      rw [ho] at h4
      simpa [optTruthy] using h4
  · decide

/-! ### Provider Selector (`get_providers_to_enrich`, `app.py` lines 113-132) -/

/-- The allow-listed regions of the directory query
(`.in_("state", ["CA","MA","PA","TX","FL","NY"])`). -/
def allowedStates : List String := ["CA", "MA", "PA", "TX", "FL", "NY"]

/-- Whether a directory row satisfies the query's region filter. -/
def stateAllowed (p : Provider) : Bool :=
  match p.state with
  | some s => allowedStates.contains s
  | none => false

/-- The already-enriched registry-id set:
`{r['npi'] for r in enriched_response.data if r.get('npi')}` — the truthy
`npi` values of the existing intelligence rows. -/
def enrichedNpis (intelRows : List (Option String)) : List String :=
  intelRows.filterMap fun o =>
    match o with
    | some n => if n != "" then some n else none
    | none => none

/-- The Selector: query the directory for rows in the allow-listed states
(pool capped at 100), drop rows whose `npi` is falsy or already enriched,
and return at most 50.  On a query error the code returns `[]`. -/
def get_providers_to_enrich (queryFails : Bool) (directory : List Provider)
    (intelRows : List (Option String)) : List Provider :=
  if queryFails then []
  else
    let providers := (directory.filter fun p => stateAllowed p).take 100
    let enriched := enrichedNpis intelRows
    (providers.filter fun p =>
      match p.npi with
      | some n => n != "" && !(enriched.contains n)
      | none => false).take 50

/-- C4: every selected target sits in an allow-listed region, has a present,
non-empty registry id not already present among the intelligence rows, the
batch holds at most 50 targets, and each comes from the 100-capped queried
pool; a target lacking a registry id is never included. -/
theorem C4_selector_batch (queryFails : Bool) (directory : List Provider)
    (intelRows : List (Option String)) :
    (∀ p ∈ get_providers_to_enrich queryFails directory intelRows,
        stateAllowed p = true
        ∧ (∃ n, p.npi = some n ∧ n ≠ "" ∧ n ∉ enrichedNpis intelRows)
        ∧ p ∈ (directory.filter fun q => stateAllowed q).take 100)
    ∧ (get_providers_to_enrich queryFails directory intelRows).length ≤ 50 := by
  constructor
  · intro p hp
    unfold get_providers_to_enrich at hp
    by_cases hq : queryFails = true
    · rw [hq] at hp
      simp at hp
    · have hq' : queryFails = false := Bool.eq_false_iff.mpr hq
      rw [hq'] at hp
      simp only [Bool.false_eq_true, if_false] at hp
      have hp2 := List.take_subset 50 _ hp
      rw [List.mem_filter] at hp2
      obtain ⟨hpool, hcond⟩ := hp2
      have hstate : stateAllowed p = true := by
        have := List.take_subset 100 _ hpool
        rw [List.mem_filter] at this
        exact this.2
      refine ⟨hstate, ?_, hpool⟩
      cases hnpi : p.npi with
      | none => rw [hnpi] at hcond; simp at hcond
      | some n =>
        rw [hnpi] at hcond
        simp only [Bool.and_eq_true, bne_iff_ne, ne_eq, Bool.not_eq_true'] at hcond
        refine ⟨n, rfl, hcond.1, ?_⟩
        intro hmem
        have : (enrichedNpis intelRows).contains n = true :=
          List.elem_eq_true_of_mem hmem
        rw [this] at hcond
        exact absurd hcond.2 (by simp)
  · unfold get_providers_to_enrich
    by_cases hq : queryFails = true
    · rw [hq]
      simp
    · have hq' : queryFails = false := Bool.eq_false_iff.mpr hq
      rw [hq']
      simp only [Bool.false_eq_true, if_false]
      calc (List.take 50 _).length ≤ 50 := by
            rw [List.length_take]
            exact min_le_left _ _

/-- Witness for C4: a concrete directory where one eligible row is selected. -/
theorem C4_selector_batch_witness :
    provAcme ∈ get_providers_to_enrich false [provAcme, provBlank] [some "9999999999"]
    ∧ stateAllowed provAcme = true
    ∧ (∃ n, provAcme.npi = some n ∧ n ≠ ""
        ∧ n ∉ enrichedNpis [some "9999999999"])
    ∧ (get_providers_to_enrich false [provAcme, provBlank] [some "9999999999"]).length ≤ 50 := by
  have hmem : provAcme ∈ get_providers_to_enrich false [provAcme, provBlank]
      [some "9999999999"] := by decide
  have h := C4_selector_batch false [provAcme, provBlank] [some "9999999999"]
  obtain ⟨hs, hn, _⟩ := h.1 provAcme hmem
  exact ⟨hmem, hs, hn, h.2⟩

/-! ### Signal Sources (`search_duckduckgo`, `search_reddit`,
`search_google_careful`, `app.py` lines 202-277) -/

/-- Outcome of the single bounded HTTP request a source makes: a response
with a status code and an already-decoded body, or a transport-level failure
(timeout, connection error, JSON/parse error — anything the bare `except:`
catches). -/
inductive HttpResult (α : Type) where
  | response (status : Nat) (body : α)
  | failure (msg : String)

/-- What one source hands back: `{'source': ..., 'signals': [...]}`. -/
structure SourceResult where
  source : String
  signals : List String
deriving DecidableEq

/-- Decoded DuckDuckGo instant-answer body: the `Abstract` text (empty when
absent) and the `RelatedTopics` entries (`some text` for a dict bearing a
`Text` field, `none` for anything else). -/
structure DDGBody where
  abstract : String
  relatedTopics : List (Option String)

/-- `search_duckduckgo`: on HTTP 200, collect the truthy abstract plus the
truthy `Text` of the first three related topics; on any other status or any
error, an empty signal list. -/
def search_duckduckgo (net : HttpResult DDGBody) : SourceResult :=
  match net with
  | .response status body =>
    if status = 200 then
      { source := "duckduckgo",
        signals := (if body.abstract != "" then [body.abstract] else [])
          ++ ((body.relatedTopics.take 3).filterMap fun t =>
            match t with
            | some txt => if txt != "" then some txt else none
            | none => none) }
    else { source := "duckduckgo", signals := [] }
  | .failure _ => { source := "duckduckgo", signals := [] }

/-- One decoded Reddit search hit (post title and self-text). -/
structure RedditPost where
  title : String
  selftext : String

/-- `search_reddit`: search term is `organization_name or provider_name`;
a falsy term short-circuits to no signals; on HTTP 200 take the first three
posts as `"{title} {selftext[:200]}"`; otherwise no signals. -/
def search_reddit (provider_name : String) (organization_name : Option String)
    (net : HttpResult (List RedditPost)) : SourceResult :=
  let search_term :=
    match organization_name with
    | some o => if o != "" then o else provider_name
    | none => provider_name
  if search_term = "" then { source := "reddit", signals := [] }
  else
    match net with
    | .response status posts =>
      if status = 200 then
        { source := "reddit",
          signals := (posts.take 3).map fun post =>
            post.title ++ " " ++ post.selftext.take 200 }
      else { source := "reddit", signals := [] }
    | .failure _ => { source := "reddit", signals := [] }

/-- Python whitespace test for `str.split()` (the characters that occur in
provider display names). -/
def isPyWs (c : Char) : Bool :=
  c == ' ' || c == '\t' || c == '\n' || c == '\r'

/-- Accumulator-based whitespace split, dropping empty fields — Python's
argument-less `str.split()`. -/
def pySplitAux : List Char → List Char → List String
  | cur, [] => if cur.isEmpty then [] else [String.mk cur.reverse]
  | cur, c :: rest =>
    if isPyWs c then
      if cur.isEmpty then pySplitAux [] rest
      else String.mk cur.reverse :: pySplitAux [] rest
    else pySplitAux (c :: cur) rest

/-- Python `s.split()`. -/
def pySplit (s : String) : List String := pySplitAux [] s.toList

/-- `search_google_careful`: the body abstracts the regex snippet extraction
from the result HTML (`re.findall` of inline span texts); on HTTP 200, keep
the first five snippets containing the first token of the provider name
(case-insensitively); a whitespace-only provider name makes
`provider_name.split()[0]` raise IndexError, caught by the bare `except:` —
no signals; any other status or error likewise yields no signals. -/
def search_google_careful (provider_name : String)
    (net : HttpResult (List String)) : SourceResult :=
  match net with
  | .response status snippets =>
    if status = 200 then
      match pySplit provider_name with
      | [] => { source := "google", signals := [] }
      | tok :: _ =>
        { source := "google",
          signals := (snippets.take 5).filter fun sn => substrCI tok sn }
    else { source := "google", signals := [] }
  | .failure _ => { source := "google", signals := [] }

/-- `asyncio.gather(*tasks, return_exceptions=True)` delivers, per source,
either its dict result or the exception object; `enrich_provider` then
extends `signals_found` with the signals of each dict result, skipping
exceptions (`app.py` lines 158-164). -/
def collectSignals (results : List (Except String SourceResult)) : List String :=
  results.foldl (fun acc r =>
    match r with
    | .ok d => acc ++ d.signals
    | .error _ => acc) []

/-- The signals one gathered result contributes. -/
def resultSignals : Except String SourceResult → List String
  | .ok d => d.signals
  | .error _ => []

theorem collectSignals_foldl (l : List (Except String SourceResult)) :
    ∀ acc : List String,
      l.foldl (fun acc r =>
        match r with
        | .ok d => acc ++ d.signals
        | .error _ => acc) acc = acc ++ (l.map resultSignals).flatten := by
  induction l with
  | nil => intro acc; simp
  | cons r l ih =>
    intro acc
    cases r with
    | ok d =>
      simp only [List.foldl_cons, ih, List.map_cons, List.flatten_cons, resultSignals]
      rw [List.append_assoc]
    | error e =>
      simp only [List.foldl_cons, ih, List.map_cons, List.flatten_cons, resultSignals]
      rw [List.nil_append]

theorem collectSignals_eq (l : List (Except String SourceResult)) :
    collectSignals l = (l.map resultSignals).flatten := by
  unfold collectSignals
  rw [collectSignals_foldl]
  rfl

/-- C5: every signal source maps a non-success status or a transport/parse
failure to an empty signal list instead of an exception, and a failed
sibling inside the gathered result list contributes nothing — the surviving
sources' signals still reach the classifier unchanged. -/
theorem C5_source_failure_isolation :
    (∀ (st : Nat) (body : DDGBody), st ≠ 200 →
        search_duckduckgo (.response st body) = { source := "duckduckgo", signals := [] })
    ∧ (∀ msg : String,
        search_duckduckgo (.failure msg) = { source := "duckduckgo", signals := [] })
    ∧ (∀ (pn : String) (org : Option String) (st : Nat) (posts : List RedditPost),
        st ≠ 200 →
        search_reddit pn org (.response st posts) = { source := "reddit", signals := [] })
    ∧ (∀ (pn : String) (org : Option String) (msg : String),
        search_reddit pn org (.failure msg) = { source := "reddit", signals := [] })
    ∧ (∀ (pn : String) (st : Nat) (snippets : List String), st ≠ 200 →
        search_google_careful pn (.response st snippets) = { source := "google", signals := [] })
    ∧ (∀ (pn msg : String),
        search_google_careful pn (.failure msg) = { source := "google", signals := [] })
    ∧ (∀ (pre post : List (Except String SourceResult)) (msg : String),
        collectSignals (pre ++ Except.error msg :: post) = collectSignals (pre ++ post)) := by
  refine ⟨?_, ?_, ?_, ?_, ?_, ?_, ?_⟩
  · intro st body h
    simp [search_duckduckgo, h]
  · intro msg
    rfl
  · intro pn org st posts h
    simp [search_reddit, h]
  · intro pn org msg
    simp [search_reddit]
  · intro pn st snippets h
    simp [search_google_careful, h]
  · intro pn msg
    rfl
  · intro pre post msg
    rw [collectSignals_eq, collectSignals_eq]
    simp [resultSignals]

/-- Witness for C5: a 404 and a timeout produce empty signal lists, and a
failed middle source leaves the two siblings' signals intact. -/
theorem C5_source_failure_isolation_witness :
    search_duckduckgo (.response 404 { abstract := "a", relatedTopics := [] })
        = { source := "duckduckgo", signals := [] }
    ∧ search_reddit "Dr. Jane Doe" none (.failure "timeout")
        = { source := "reddit", signals := [] }
    ∧ collectSignals
        [Except.ok { source := "duckduckgo", signals := ["Morpheus8 arrived"] },
         Except.error "timeout",
         Except.ok { source := "google", signals := ["now offering IPL"] }]
      = collectSignals
        [Except.ok { source := "duckduckgo", signals := ["Morpheus8 arrived"] },
         Except.ok { source := "google", signals := ["now offering IPL"] }] := by
  have h := C5_source_failure_isolation
  refine ⟨h.1 404 { abstract := "a", relatedTopics := [] } (by decide),
          h.2.2.2.1 "Dr. Jane Doe" none "timeout",
          h.2.2.2.2.2.2
            [Except.ok { source := "duckduckgo", signals := ["Morpheus8 arrived"] }]
            [Except.ok { source := "google", signals := ["now offering IPL"] }]
            "timeout"⟩

/-! ### Persistence Sink (`save_intelligence`, `app.py` lines 279-331) -/

/-- A row of `rpin_provider_intelligence` as `save_intelligence` builds it
(the two `market_insights` flags stand for the serialized insight dict). -/
structure IntelRecord where
  rpin_id : String
  provider_id : Option String
  npi : Option String
  display_name : String
  first_name : Option String
  last_name : Option String
  organization_name : Option String
  city : Option String
  state : Option String
  equipment_data : EquipDict
  expansion_signal : Bool
  distress_signal : Bool
  opportunity_score : Int
  data_source : String
  verified : Bool
deriving DecidableEq

/-- A row of `provider_buying_signals`; `details` stands for the
`json.dumps(intelligence)` payload. -/
structure BuyingSignal where
  provider_id : String
  signal_type : String
  signal_strength : String
  details : Intelligence
  created_at : String
deriving DecidableEq

/-- The two tables the sink writes. -/
structure DbState where
  rpin_provider_intelligence : List IntelRecord
  provider_buying_signals : List BuyingSignal
deriving DecidableEq

/-- Which of the three store calls fail in this pass (each raises an
exception in the code when set). -/
structure FailureModel where
  insertIntelFails : Bool
  updateIntelFails : Bool
  insertSignalFails : Bool
deriving DecidableEq

/-- `rpin_id` generation: `RPIN-{npi or id[:8]}-{timestamp}` — the npi is
used when truthy and not the strings `'nan'`/`'None'`, else the first 8
characters of the internal id (`now` is the `%Y%m%d%H%M%S` timestamp). -/
def mk_rpin_id (now : String) (p : Provider) : String :=
  let id_part :=
    match p.npi with
    | some n => if n != "" && n != "nan" && n != "None" then n else p.id.take 8
    | none => p.id.take 8
  "RPIN-" ++ id_part ++ "-" ++ now

/-- The record dict prepared for `rpin_provider_intelligence`
(`provider_id` is deliberately `None` in the code; `display_name` was
computed by `_build_provider_name` when the intelligence draft was created). -/
def buildIntelRecord (now : String) (intel : Intelligence) (p : Provider) : IntelRecord :=
  { rpin_id := mk_rpin_id now p
    provider_id := none
    npi := p.npi
    display_name := _build_provider_name p
    first_name := p.first_name
    last_name := p.last_name
    organization_name := p.organization_name
    city := p.city
    state := p.state
    equipment_data := intel.equipment_data
    expansion_signal := intel.expansion_signal
    distress_signal := intel.distress_signal
    opportunity_score := intel.opportunity_score
    data_source := "free_search_apis"
    verified := false }

/-- The `provider_buying_signals` row written for a hot lead: equipment
adoption when any equipment was detected (truthy dict), else expansion;
high strength at score ≥ 50, else medium. -/
def buildBuyingSignal (now : String) (intel : Intelligence) (p : Provider) : BuyingSignal :=
  { provider_id := p.id
    signal_type := if !intel.equipment_data.isEmpty then "equipment_adoption" else "expansion"
    signal_strength := if intel.opportunity_score ≥ 50 then "high" else "medium"
    details := intel
    created_at := now }

/-- `table("rpin_provider_intelligence").insert(record)`. -/
def dbInsertIntel (db : DbState) (r : IntelRecord) : DbState :=
  { db with rpin_provider_intelligence := db.rpin_provider_intelligence ++ [r] }

/-- `table("rpin_provider_intelligence").update(record).eq('rpin_id', …)`:
replace every row carrying the generated id. -/
def dbUpdateIntel (db : DbState) (r : IntelRecord) : DbState :=
  { db with rpin_provider_intelligence :=
      db.rpin_provider_intelligence.map fun old =>
        if old.rpin_id == r.rpin_id then r else old }

/-- `table("provider_buying_signals").insert(signal_record)`. -/
def dbInsertSignal (db : DbState) (s : BuyingSignal) : DbState :=
  { db with provider_buying_signals := db.provider_buying_signals ++ [s] }

/-- The body of `save_intelligence` inside the outer `try:`: attempt the
insert; on failure fall back to the update keyed by the generated id; then,
only for score ≥ 30, insert the buying signal.  An `Except.error` carries
the database state at the point the uncaught exception left the body. -/
def save_intelligence_body (fm : FailureModel) (now : String) (intel : Intelligence)
    (p : Provider) (db : DbState) : Except (String × DbState) DbState :=
  let record := buildIntelRecord now intel p
  match (if fm.insertIntelFails then
           (if fm.updateIntelFails then Except.error ("update failed", db)
            else Except.ok (dbUpdateIntel db record))
         else Except.ok (dbInsertIntel db record) :
         Except (String × DbState) DbState) with
  | .error e => .error e
  | .ok db1 =>
    if intel.opportunity_score ≥ 30 then
      if fm.insertSignalFails then .error ("signal insert failed", db1)
      else .ok (dbInsertSignal db1 (buildBuyingSignal now intel p))
    else .ok db1

/-- `save_intelligence` with its outer `except Exception as e: print(...)`:
whatever the body did, the error is logged and absorbed, and the state the
body had reached is kept — no exception reaches the caller. -/
def save_intelligence (fm : FailureModel) (now : String) (intel : Intelligence)
    (p : Provider) (db : DbState) : DbState :=
  match save_intelligence_body fm now intel p db with
  | .ok db' => db'
  | .error (_, db') => db'

/-- With no injected failures, `save_intelligence` performs the insert and,
for score ≥ 30, the signal insert. -/
theorem save_intelligence_no_fail_eq (fm : FailureModel) (now : String)
    (intel : Intelligence) (p : Provider) (db : DbState)
    (h1 : fm.insertIntelFails = false) (h2 : fm.insertSignalFails = false) :
    save_intelligence fm now intel p db
      = if intel.opportunity_score ≥ 30 then
          dbInsertSignal (dbInsertIntel db (buildIntelRecord now intel p))
            (buildBuyingSignal now intel p)
        else dbInsertIntel db (buildIntelRecord now intel p) := by
  by_cases hs : intel.opportunity_score ≥ 30
  · simp [save_intelligence, save_intelligence_body, h1, h2, hs]
  · simp [save_intelligence, save_intelligence_body, h1, h2, hs]

/-- C6: `save_intelligence` absorbs every storage failure. With a healthy
store the insert (and, for hot leads, the signal insert) goes through; a
failed insert falls back to the update keyed by the generated record id; a
failed secondary signal insert leaves the already-persisted primary record
in place (no rollback); and even when both primary paths fail, the function
returns the untouched state instead of propagating an exception. -/
theorem C6_save_fault_tolerance (fm : FailureModel) (now : String)
    (intel : Intelligence) (p : Provider) (db : DbState) :
    (fm.insertIntelFails = false → fm.insertSignalFails = false →
        save_intelligence fm now intel p db
          = if intel.opportunity_score ≥ 30 then
              dbInsertSignal (dbInsertIntel db (buildIntelRecord now intel p))
                (buildBuyingSignal now intel p)
            else dbInsertIntel db (buildIntelRecord now intel p))
    ∧ (fm.insertIntelFails = true → fm.updateIntelFails = false →
        fm.insertSignalFails = false →
        save_intelligence fm now intel p db
          = if intel.opportunity_score ≥ 30 then
              dbInsertSignal (dbUpdateIntel db (buildIntelRecord now intel p))
                (buildBuyingSignal now intel p)
            else dbUpdateIntel db (buildIntelRecord now intel p))
    ∧ (fm.insertIntelFails = false → fm.insertSignalFails = true →
        intel.opportunity_score ≥ 30 →
        save_intelligence fm now intel p db
          = dbInsertIntel db (buildIntelRecord now intel p))
    ∧ (fm.insertIntelFails = true → fm.updateIntelFails = true →
        save_intelligence fm now intel p db = db) := by
  refine ⟨?_, ?_, ?_, ?_⟩
  · intro h1 h2
    exact save_intelligence_no_fail_eq fm now intel p db h1 h2
  · intro h1 h2 h3
    by_cases hs : intel.opportunity_score ≥ 30
    · simp [save_intelligence, save_intelligence_body, h1, h2, h3, hs]
    · simp [save_intelligence, save_intelligence_body, h1, h2, h3, hs]
  · intro h1 h2 h3
    simp [save_intelligence, save_intelligence_body, h1, h2, h3]
  · intro h1 h2
    simp [save_intelligence, save_intelligence_body, h1, h2]

/-- Witness for C6: with the signal insert failing, the hot-lead record from
one real classified signal stays persisted; with both primary writes
failing, the state is returned untouched. -/
theorem C6_save_fault_tolerance_witness :
    ((classify "T" ["Now offering Morpheus8"]).opportunity_score ≥ 30)
    ∧ save_intelligence ⟨false, false, true⟩ "T"
        (classify "T" ["Now offering Morpheus8"]) provAcme ⟨[], []⟩
        = dbInsertIntel ⟨[], []⟩
            (buildIntelRecord "T" (classify "T" ["Now offering Morpheus8"]) provAcme)
    ∧ save_intelligence ⟨true, true, false⟩ "T"
        (classify "T" ["Now offering Morpheus8"]) provAcme ⟨[], []⟩ = ⟨[], []⟩ := by
  refine ⟨by decide, ?_, ?_⟩
  · exact (C6_save_fault_tolerance ⟨false, false, true⟩ "T"
      (classify "T" ["Now offering Morpheus8"]) provAcme ⟨[], []⟩).2.2.1
      rfl rfl (by decide)
  · exact (C6_save_fault_tolerance ⟨true, true, false⟩ "T"
      (classify "T" ["Now offering Morpheus8"]) provAcme ⟨[], []⟩).2.2.2 rfl rfl

/-- C3: with a healthy store, a BuyingSignal row is appended exactly when the
persisted record's score is ≥ 30; its strength is "high" at score ≥ 50 and
"medium" below, and its type is "equipment_adoption" exactly when the
equipment map is non-empty, else "expansion". -/
theorem C3_buying_signal_emission (fm : FailureModel) (now : String)
    (intel : Intelligence) (p : Provider) (db : DbState)
    (h1 : fm.insertIntelFails = false) (h2 : fm.insertSignalFails = false) :
    ((save_intelligence fm now intel p db).provider_buying_signals
        = if intel.opportunity_score ≥ 30 then
            db.provider_buying_signals ++ [buildBuyingSignal now intel p]
          else db.provider_buying_signals)
    ∧ ((buildBuyingSignal now intel p).signal_strength
        = if intel.opportunity_score ≥ 50 then "high" else "medium")
    ∧ ((buildBuyingSignal now intel p).signal_type
        = if intel.equipment_data.isEmpty then "expansion" else "equipment_adoption") := by
  refine ⟨?_, rfl, ?_⟩
  · rw [save_intelligence_no_fail_eq fm now intel p db h1 h2]
    by_cases hs : intel.opportunity_score ≥ 30
    · simp [hs, dbInsertSignal, dbInsertIntel]
    · simp [hs, dbInsertIntel]
  · by_cases he : intel.equipment_data.isEmpty
    · simp [buildBuyingSignal, he]
    · simp [buildBuyingSignal, he]

/-- Witness for C3: the single-signal hot lead (score 35) emits exactly one
medium-strength equipment-adoption signal. -/
theorem C3_buying_signal_emission_witness :
    ((classify "T" ["Now offering Morpheus8"]).opportunity_score ≥ 30)
    ∧ (save_intelligence ⟨false, false, false⟩ "T"
        (classify "T" ["Now offering Morpheus8"]) provAcme ⟨[], []⟩).provider_buying_signals
        = [buildBuyingSignal "T" (classify "T" ["Now offering Morpheus8"]) provAcme]
    ∧ (buildBuyingSignal "T" (classify "T" ["Now offering Morpheus8"]) provAcme).signal_strength
        = "medium"
    ∧ (buildBuyingSignal "T" (classify "T" ["Now offering Morpheus8"]) provAcme).signal_type
        = "equipment_adoption" := by
  have h := C3_buying_signal_emission ⟨false, false, false⟩ "T"
    (classify "T" ["Now offering Morpheus8"]) provAcme ⟨[], []⟩ rfl rfl
  refine ⟨by decide, ?_, ?_, ?_⟩
  · rw [h.1, if_pos (by decide)]
    rfl
  · rw [h.2.1, if_neg (by decide)]
  · rw [h.2.2, if_neg (by decide)]

/-! ### Per-target decision tail and engine counters
(`enrich_provider` lines 190-197, `__init__` lines 31-36, `test_run`) -/

/-- The engine's in-memory counters, both 0 in `__init__`; `test_run`
reports exactly these after one cycle. -/
structure Counters where
  providers_enriched : Nat
  hot_leads_found : Nat
deriving DecidableEq

/-- Counter state of a freshly constructed engine. -/
def initCounters : Counters := { providers_enriched := 0, hot_leads_found := 0 }

/-- The decision tail of `enrich_provider`: persist and bump the enriched
counter only when the classified score is > 0; additionally bump the
hot-lead counter when the score is ≥ 30.  For score ≤ 0 nothing happens —
a silent discard, not an error. -/
def enrich_provider_post (fm : FailureModel) (now : String) (p : Provider)
    (signals : List String) (db : DbState) (c : Counters) : DbState × Counters :=
  let intel := classify now signals
  if intel.opportunity_score > 0 then
    let db' := save_intelligence fm now intel p db
    let c1 := { c with providers_enriched := c.providers_enriched + 1 }
    let c2 := if intel.opportunity_score ≥ 30 then
        { c1 with hot_leads_found := c1.hot_leads_found + 1 } else c1
    (db', c2)
  else (db, c)

/-- A sequence of per-target enrichment passes threading the store and the
counters, as one cycle (or several) performs them. -/
def run_enrichments (fm : FailureModel) (now : String)
    (items : List (Provider × List String)) (db : DbState) (c : Counters) :
    DbState × Counters :=
  items.foldl (fun st it => enrich_provider_post fm now it.1 it.2 st.1 st.2) (db, c)

/-- C2: the record is handed to `save_intelligence` exactly when the score
is strictly positive; otherwise store and counters are untouched.  A signal
set with zero vocabulary matches scores exactly 0 (discarded), and one with
exactly one expansion match and one distress match scores −15 (discarded). -/
theorem C2_persist_iff_positive_score (fm : FailureModel) (now : String)
    (p : Provider) (sigs : List String) (db : DbState) (c : Counters) :
    ((classify now sigs).opportunity_score ≤ 0 →
        enrich_provider_post fm now p sigs db c = (db, c))
    ∧ ((classify now sigs).opportunity_score > 0 →
        (enrich_provider_post fm now p sigs db c).1
          = save_intelligence fm now (classify now sigs) p db)
    ∧ ((sigs.map (fun s => (equipment_signals.countP (fun t => substrCI t s) : Int))).sum = 0 →
       (sigs.map (fun s => (expansion_signals.countP (fun t => substrCI t s) : Int))).sum = 0 →
       (sigs.map (fun s => (distress_signals.countP (fun t => substrCI t s) : Int))).sum = 0 →
        (classify now sigs).opportunity_score = 0
        ∧ enrich_provider_post fm now p sigs db c = (db, c))
    ∧ ((sigs.map (fun s => (equipment_signals.countP (fun t => substrCI t s) : Int))).sum = 0 →
       (sigs.map (fun s => (expansion_signals.countP (fun t => substrCI t s) : Int))).sum = 1 →
       (sigs.map (fun s => (distress_signals.countP (fun t => substrCI t s) : Int))).sum = 1 →
        (classify now sigs).opportunity_score = -15
        ∧ enrich_provider_post fm now p sigs db c = (db, c)) := by
  have hscore := (classify_score now sigs).trans (map_signalScore_sum sigs)
  refine ⟨?_, ?_, ?_, ?_⟩
  · intro h
    simp [enrich_provider_post, not_lt.mpr h]
  · intro h
    simp [enrich_provider_post, h]
  · intro h1 h2 h3
    rw [h1, h2, h3] at hscore
    have h0 : (classify now sigs).opportunity_score = 0 := by
      rw [hscore]; ring
    exact ⟨h0, by simp [enrich_provider_post, h0]⟩
  · intro h1 h2 h3
    rw [h1, h2, h3] at hscore
    have h0 : (classify now sigs).opportunity_score = -15 := by
      rw [hscore]; ring
    refine ⟨h0, ?_⟩
    have hle : (classify now sigs).opportunity_score ≤ 0 := by rw [h0]; norm_num
    simp [enrich_provider_post, not_lt.mpr hle]

/-- Witness for C2: a matchless signal set scores 0 and is discarded; one
expansion match plus one distress match scores −15 and is discarded. -/
theorem C2_persist_iff_positive_score_witness :
    ((classify "T" ["general dermatology blog post"]).opportunity_score = 0)
    ∧ enrich_provider_post ⟨false, false, false⟩ "T" provAcme
        ["general dermatology blog post"] ⟨[], []⟩ initCounters = (⟨[], []⟩, initCounters)
    ∧ ((classify "T" ["now offering botox", "closing soon"]).opportunity_score = -15)
    ∧ enrich_provider_post ⟨false, false, false⟩ "T" provAcme
        ["now offering botox", "closing soon"] ⟨[], []⟩ initCounters
        = (⟨[], []⟩, initCounters) := by
  have h1 := (C2_persist_iff_positive_score ⟨false, false, false⟩ "T" provAcme
    ["general dermatology blog post"] ⟨[], []⟩ initCounters).2.2.1
    (by decide) (by decide) (by decide)
  have h2 := (C2_persist_iff_positive_score ⟨false, false, false⟩ "T" provAcme
    ["now offering botox", "closing soon"] ⟨[], []⟩ initCounters).2.2.2
    (by decide) (by decide) (by decide)
  exact ⟨h1.1, h1.2, h2.1, h2.2⟩

/-- One enrichment pass preserves `hot_leads_found ≤ providers_enriched`:
the hot-lead bump only happens in a pass whose score exceeded 0, where the
enriched counter was bumped first. -/
theorem enrich_post_counter_mono (fm : FailureModel) (now : String) (p : Provider)
    (sigs : List String) (db : DbState) (c : Counters)
    (h : c.hot_leads_found ≤ c.providers_enriched) :
    (enrich_provider_post fm now p sigs db c).2.hot_leads_found
      ≤ (enrich_provider_post fm now p sigs db c).2.providers_enriched := by
  unfold enrich_provider_post
  dsimp only
  split_ifs with h1 h2
  · dsimp only
    omega
  · dsimp only
    omega
  · exact h

theorem run_enrichments_counter_invariant (fm : FailureModel) (now : String)
    (items : List (Provider × List String)) :
    ∀ (db : DbState) (c : Counters),
      c.hot_leads_found ≤ c.providers_enriched →
      (run_enrichments fm now items db c).2.hot_leads_found
        ≤ (run_enrichments fm now items db c).2.providers_enriched := by
  induction items with
  | nil => intro db c h; exact h
  | cons it items ih =>
    intro db c h
    unfold run_enrichments
    simp only [List.foldl_cons]
    have hstep := enrich_post_counter_mono fm now it.1 it.2 db c h
    have := ih (enrich_provider_post fm now it.1 it.2 db c).1
      (enrich_provider_post fm now it.1 it.2 db c).2 hstep
    unfold run_enrichments at this
    exact this

/-- C9: starting from a freshly constructed engine (both counters 0), after
any sequence of enrichment passes the hot-lead counter never exceeds the
enriched counter — what the single-cycle test entry point reports respects
`hot_leads_found ≤ providers_enriched`. -/
theorem C9_hot_leads_le_enriched (fm : FailureModel) (now : String)
    (items : List (Provider × List String)) (db : DbState) :
    (run_enrichments fm now items db initCounters).2.hot_leads_found
      ≤ (run_enrichments fm now items db initCounters).2.providers_enriched :=
  run_enrichments_counter_invariant fm now items db initCounters (Nat.le_refl 0)
